import Mathlib

/-!
Shallow embedding of the Solido maintenance decision engine
(`src/cli/maintainer/src/maintenance.rs`) and proofs about it.

Machine integers (`u64`, `u8`) are modelled as `Nat`; the Rust code uses
checked arithmetic that panics on under/overflow rather than wrapping, so no
modular reduction is performed, and theorems that depend on a checked
subtraction not panicking carry the corresponding hypothesis.
-/

namespace Solido

/-- Public keys (`Pubkey`) are opaque identifiers compared for equality only;
we model them as naturals. -/
abbrev Pubkey := Nat

/-- `StakeType` from the on-chain library: which kind of derived account. -/
inductive StakeType where
  | Stake
  | Unstake
deriving DecidableEq, Repr

/-- A seed window `[begin, end)` (`SeedRange`); `begin`/`end` are reserved
words in Lean, hence the underscores. -/
structure SeedRange where
  begin_ : Nat
  end_ : Nat
deriving DecidableEq, Repr

/-- Breakdown of a stake account's balance (`StakeBalance`). -/
structure StakeBalance where
  inactive : Nat
  activating : Nat
  active : Nat
  deactivating : Nat
deriving DecidableEq, Repr

/-- `StakeBalance::total()`: the sum of the four categories. -/
def StakeBalance.total (b : StakeBalance) : Nat :=
  b.inactive + b.activating + b.active + b.deactivating

/-- A derived stake account's observed state (`StakeAccount`). -/
structure StakeAccount where
  balance : StakeBalance
  seed : Nat
  activation_epoch : Nat
deriving DecidableEq, Repr

instance : Inhabited StakeAccount := ⟨⟨⟨0, 0, 0, 0⟩, 0, 0⟩⟩

/-- A validator list entry (`Validator` from the on-chain library).
The lifecycle flag and the recorded balance are kept abstract:
`effective_stake_balance` holds the value that the library method
`compute_effective_stake_balance` returns (the spec's "cumulative recorded
stake balance"). -/
structure Validator where
  pubkey : Pubkey
  active : Bool
  stake_seeds : SeedRange
  unstake_seeds : SeedRange
  effective_stake_balance : Nat
deriving DecidableEq, Repr

instance : Inhabited Validator := ⟨⟨0, false, ⟨0, 0⟩, ⟨0, 0⟩, 0⟩⟩

/-- `Validator::is_active`. -/
def Validator.is_active (v : Validator) : Bool := v.active

/-- `Validator::is_inactive`: the negation of the lifecycle flag. -/
def Validator.is_inactive (v : Validator) : Bool := !v.active

/-- A maintainer list entry (`Maintainer`). -/
structure Maintainer where
  pubkey : Pubkey
deriving DecidableEq, Repr

instance : Inhabited Maintainer := ⟨⟨0⟩⟩

/-- The part of a vote account the engine reads (`VoteState`):
the commission and the vote credits. -/
structure VoteState where
  commission : Nat
  credits : Nat
deriving DecidableEq, Repr

/-- The off-chain component of a performance record (`ValidatorPerf::rest`). -/
structure OffchainValidatorPerf where
  updated_at : Nat
deriving DecidableEq, Repr

/-- A validator performance record (`ValidatorPerf`). -/
structure ValidatorPerf where
  commission : Nat
  commission_updated_at : Nat
  rest : Option OffchainValidatorPerf
deriving DecidableEq, Repr

/-- The curation criteria the engine reads (`Criteria`): only the maximum
commission is consulted by the embedded code paths. -/
structure Criteria where
  max_commission : Nat
deriving DecidableEq, Repr

/-- The exchange-rate bookkeeping the engine reads (`ExchangeRate`). -/
structure ExchangeRate where
  computed_in_epoch : Nat
deriving DecidableEq, Repr

/-- The pool-global state the engine reads (`Lido`). -/
structure Lido where
  exchange_rate : ExchangeRate
  criteria : Criteria
deriving DecidableEq, Repr

/-- The clock sysvar (`Clock`): current slot and epoch. -/
structure Clock where
  slot : Nat
  epoch : Nat
deriving DecidableEq, Repr

/-- The epoch-schedule sysvar, kept abstract as the two queries the engine
makes of it (`get_first_slot_in_epoch`, `get_slots_in_epoch`). -/
structure EpochSchedule where
  get_first_slot_in_epoch : Nat → Nat
  get_slots_in_epoch : Nat → Nat

/-- The rent sysvar, kept abstract as the one query the engine makes of it
(`minimum_balance`, from the data length in bytes). -/
structure Rent where
  minimum_balance : Nat → Nat

/-- The stake/unstake timing policy (`StakeTime`). -/
inductive StakeTime where
  | Anytime
  | OnlyNearEpochEnd
deriving DecidableEq, Repr

/-- `Rational` from the on-chain library: compared by cross-multiplication.
The Rust comparison is through `PartialOrd` and is undefined (yields no
ordering, so every comparison operator returns false) when either
denominator is zero; the guards reproduce that at the two call sites, which
use `>` and `>=`. -/
structure Rational where
  numerator : Nat
  denominator : Nat
deriving DecidableEq, Repr

/-- `a > b` on `Rational` by cross-multiplication. -/
def Rational.gt (a b : Rational) : Bool :=
  a.denominator != 0 && b.denominator != 0 &&
    b.numerator * a.denominator < a.numerator * b.denominator

/-- `a >= b` on `Rational` by cross-multiplication. -/
def Rational.ge (a b : Rational) : Bool :=
  a.denominator != 0 && b.denominator != 0 &&
    b.numerator * a.denominator ≤ a.numerator * b.denominator

/-- The snapshot of on-chain accounts the engine decides from
(`SolidoState`).  The per-validator vectors are in the same order as
`validators`.  Fields the decision logic never reads (metrics inputs,
addresses used only inside wire instructions) are omitted; the reserve
account is represented by its lamport balance, all its rent data having
length 0. -/
structure SolidoState where
  solido : Lido
  validators : List Validator
  validator_stake_accounts : List (List (Pubkey × StakeAccount))
  validator_unstake_accounts : List (List (Pubkey × StakeAccount))
  validator_vote_accounts : List (Option VoteState)
  validator_perfs : List (Option ValidatorPerf)
  validator_block_production_rates : List (Option Nat)
  maintainers : List Maintainer
  maintainer_balances : List Nat
  reserve_account_lamports : Nat
  rent : Rent
  clock : Clock
  epoch_schedule : EpochSchedule
  maintainer_address : Pubkey
  stake_time : StakeTime
  end_of_epoch_threshold : Nat

/-- `SolidoState::MAINTAINER_DUTY_SLICE_LENGTH`. -/
def MAINTAINER_DUTY_SLICE_LENGTH : Nat := 100

/-- `SolidoState::MAINTAINER_DUTY_PAUSE_LENGTH`. -/
def MAINTAINER_DUTY_PAUSE_LENGTH : Nat := 10

/-- `AccountList::position`: index of the first entry with the given pubkey. -/
def Maintainer.listPosition (l : List Maintainer) (k : Pubkey) : Option Nat :=
  l.findIdx? (fun m => m.pubkey == k)

/-- `SolidoState::get_current_maintainer_duty`. -/
def SolidoState.get_current_maintainer_duty (s : SolidoState) : Option Pubkey :=
  if s.maintainers.isEmpty then
    none
  else
    let duty_slice := s.clock.slot / MAINTAINER_DUTY_SLICE_LENGTH
    let slot_in_duty_slice := s.clock.slot % MAINTAINER_DUTY_SLICE_LENGTH
    if MAINTAINER_DUTY_SLICE_LENGTH - MAINTAINER_DUTY_PAUSE_LENGTH ≤ slot_in_duty_slice then
      none
    else
      let maintainer_index := duty_slice % s.maintainers.length
      some (s.maintainers.getD maintainer_index default).pubkey

/-- `SolidoState::get_next_maintainer_duty_slot`. -/
def SolidoState.get_next_maintainer_duty_slot (s : SolidoState) (maintainer : Pubkey) :
    Option Nat :=
  if s.maintainers.isEmpty then
    none
  else
    let cycle_length := s.maintainers.length * MAINTAINER_DUTY_SLICE_LENGTH
    let current_cycle_start_slot := s.clock.slot / cycle_length * cycle_length
    match s.maintainers.findIdx? (fun m => m.pubkey == maintainer) with
    | none => none
    | some self_index =>
      let self_slice_start_slot :=
        current_cycle_start_slot + self_index * MAINTAINER_DUTY_SLICE_LENGTH
      if self_slice_start_slot ≤ s.clock.slot then
        some (self_slice_start_slot + cycle_length)
      else
        some self_slice_start_slot

/-- The same snapshot observed at a different slot (all other data unchanged);
used to state properties that quantify over the clock. -/
def SolidoState.atSlot (s : SolidoState) (u : Nat) : SolidoState :=
  { s with clock := { s.clock with slot := u } }

/-- `SolidoState::slots_into_current_epoch`.  The Rust subtraction is a plain
`u64` subtraction that panics in debug builds if the current slot precedes the
epoch's first slot; here it truncates at zero, and theorems that depend on it
carry the no-panic hypothesis. -/
def SolidoState.slots_into_current_epoch (s : SolidoState) : Nat :=
  s.clock.slot - s.epoch_schedule.get_first_slot_in_epoch s.clock.epoch

/-- `SolidoState::is_at_epoch_end`. -/
def SolidoState.is_at_epoch_end (s : SolidoState) : Bool :=
  let slots_per_epoch := s.epoch_schedule.get_slots_in_epoch s.clock.epoch
  Rational.ge ⟨s.slots_into_current_epoch, slots_per_epoch⟩
    ⟨s.end_of_epoch_threshold, 100⟩

/-- `SolidoState::confirm_should_stake_unstake_in_current_slot`.  The two
`checked_sub ... expect` calls panic when the schedule is inconsistent with
the clock; here they truncate at zero, and theorems carry the corresponding
hypotheses. -/
def SolidoState.confirm_should_stake_unstake_in_current_slot (s : SolidoState) :
    Option Unit :=
  match s.stake_time with
  | StakeTime.Anytime => some ()
  | StakeTime.OnlyNearEpochEnd =>
    let slots_epoch_begin := s.epoch_schedule.get_first_slot_in_epoch s.clock.epoch
    let next_epoch_begin := s.epoch_schedule.get_first_slot_in_epoch (s.clock.epoch + 1)
    let slots_per_epoch := next_epoch_begin - slots_epoch_begin
    let slot_past_epoch := s.clock.slot - slots_epoch_begin
    let ratio : Rational := ⟨slot_past_epoch, slots_per_epoch⟩
    let theshold : Rational := ⟨s.end_of_epoch_threshold, 100⟩
    if Rational.gt ratio theshold then some () else none

/-- `MINIMUM_STAKE_ACCOUNT_BALANCE` from the on-chain library.
Modelled from the spec: the "fixed minimum stake-account balance" floor; its
declaration is not under src/, the value used here is 1 SOL in lamports.  No
claim depends on the specific value. -/
def MINIMUM_STAKE_ACCOUNT_BALANCE : Nat := 1000000000

/-- `MAXIMUM_UNSTAKE_ACCOUNTS` from the on-chain library.
Modelled from the spec: "the count of live unstake accounts never exceeds a
fixed maximum (3 in the observed policy)". -/
def MAXIMUM_UNSTAKE_ACCOUNTS : Nat := 3

/-- `SolidoState::MINIMUM_WITHDRAW_AMOUNT`
(`DEFAULT_TARGET_LAMPORTS_PER_SIGNATURE * 100` with the SDK default of
10000 lamports per signature). -/
def MINIMUM_WITHDRAW_AMOUNT : Nat := 10000 * 100

/-- `SolidoState::UNBALANCE_THRESHOLD`. -/
def UNBALANCE_THRESHOLD : Rational := ⟨1, 10⟩

/-- The serialized size of `StakeState` (`std::mem::size_of::<StakeState>()`),
200 bytes in the Solana SDK; only ever passed to the abstract
`Rent.minimum_balance`. -/
def STAKE_STATE_SIZE : Nat := 200

/-- The funding floor of `try_perform_maintenance`
(`let minimum_maintainer_balance = Lamports(100_000_000)`). -/
def minimum_maintainer_balance : Nat := 100000000

/-- Modelled from the spec: the operations the decision engine calls in the
on-chain library (crate `lido`) and the address-derivation helpers, none of
which are under src/.  Per §4.1 the allocator is a black-box collaborator:
`get_target_balance` computes per-validator targets (the call site unwraps
its result, which per the contract only fails when no active validator
exists, a case the call sites guard against, so it is total here);
`get_minimum_stake_validator_index_amount` returns the active validator
furthest below target with the shortfall; `get_unstake_validator_index`
returns the validator above target beyond the threshold with the excess, if
any.  `does_perform_well` is the curation predicate, `can_merge` the
stake-account mergeability predicate (`to.can_merge(&from)`), and
`check_can_be_removed` is true where the Rust `Result` is `Ok`.  The
`find_*_address` functions are the deterministic, pure derived-address
computations.  `per64 n d` is the ratio `n / d` scaled to `u64` range.
All theorems quantify over this structure, so nothing is assumed of the
collaborators beyond their signatures. -/
structure Collab where
  get_target_balance : Nat → List Validator → List Nat
  get_minimum_stake_validator_index_amount : List Validator → List Nat → Nat × Nat
  get_unstake_validator_index :
    List Validator → List Nat → Rational → Option (Nat × Nat)
  does_perform_well : Criteria → Nat → Option ValidatorPerf → Bool
  can_merge : StakeAccount → StakeAccount → Bool
  check_can_be_removed : Validator → Bool
  find_stake_account_address : Validator → Nat → StakeType → Pubkey
  find_temporary_stake_account_address : Validator → Nat → Nat → Pubkey
  per64 : Nat → Nat → Nat

/-- `Unstake`: the description of an unstake action. -/
structure Unstake where
  validator_vote_account : Pubkey
  from_stake_account : Pubkey
  to_unstake_account : Pubkey
  from_stake_seed : Nat
  to_unstake_seed : Nat
  amount : Nat
deriving DecidableEq, Repr

/-- `MaintenanceOutput`: the structured description of the one action a cycle
produces.  The wire `Instruction` built alongside it is the out-of-scope
submission payload, so `MaintenanceInstruction` is represented by its
`output` field alone; an embedded check returns `some` exactly when the Rust
check returns `Some(MaintenanceInstruction)`. -/
inductive MaintenanceOutput where
  | StakeDeposit (validator_vote_account stake_account : Pubkey) (amount : Nat)
  | UpdateExchangeRate
  | UpdateOffchainValidatorPerf (validator_vote_account : Pubkey)
      (block_production_rate vote_success_rate : Nat)
  | UpdateOnchainValidatorPerf (validator_vote_account : Pubkey)
  | UpdateStakeAccountBalance (validator_vote_account : Pubkey)
      (expected_difference_stake unstake_withdrawn_to_reserve : Nat)
  | MergeStake (validator_vote_account from_stake to_stake : Pubkey)
      (from_stake_seed to_stake_seed : Nat)
  | UnstakeFromInactiveValidator (u : Unstake)
  | DeactivateIfViolates (validator_vote_account : Pubkey)
  | ReactivateIfComplies (validator_vote_account : Pubkey)
  | RemoveValidator (validator_vote_account : Pubkey)
  | UnstakeFromActiveValidator (u : Unstake)
deriving DecidableEq, Repr

/-- `SolidoState::get_effective_reserve` (`saturating_sub` of the reserve's
rent-exempt minimum for zero data length). -/
def SolidoState.get_effective_reserve (s : SolidoState) : Nat :=
  s.reserve_account_lamports - s.rent.minimum_balance 0

/-- `AccountList::<Validator>::position`. -/
def Validator.listPosition (l : List Validator) (k : Pubkey) : Option Nat :=
  l.findIdx? (fun v => v.pubkey == k)

/-- `SolidoState::get_unstake_instruction`: derives the unstake account
address and builds the instruction; returns `None` when the validator or the
acting maintainer has no position in its list.  The instruction itself is
out-of-scope wire payload, so only the returned address is kept. -/
def SolidoState.get_unstake_instruction (s : SolidoState) (c : Collab)
    (v : Validator) (_stake_account : Pubkey × StakeAccount) (_amount : Nat) :
    Option Pubkey :=
  let validator_unstake_account :=
    c.find_stake_account_address v v.unstake_seeds.end_ StakeType.Unstake
  match Validator.listPosition s.validators v.pubkey,
      Maintainer.listPosition s.maintainers s.maintainer_address with
  | some _, some _ => some validator_unstake_account
  | _, _ => none

/-- `SolidoState::get_merge_instruction`: returns `None` when the validator
has no position in the list; the instruction is out-of-scope wire payload. -/
def SolidoState.get_merge_instruction (s : SolidoState) (c : Collab)
    (v : Validator) (from_seed to_seed : Nat) : Option Unit :=
  let _from_stake := c.find_stake_account_address v from_seed StakeType.Stake
  let _to_stake := c.find_stake_account_address v to_seed StakeType.Stake
  (Validator.listPosition s.validators v.pubkey).map (fun _ => ())

/-- The loop body of `try_merge_on_all_stakes` over the remaining
(validator, stake accounts) pairs. -/
def tryMergeLoop (s : SolidoState) (c : Collab) :
    List (Validator × List (Pubkey × StakeAccount)) → Option MaintenanceOutput
  | [] => none
  | (validator, stake_accounts) :: rest =>
    match stake_accounts with
    | from_stake :: to_stake :: _ =>
      if c.can_merge to_stake.2 from_stake.2 then
        match s.get_merge_instruction c validator from_stake.2.seed to_stake.2.seed with
        | none => none
        | some _ =>
          some (MaintenanceOutput.MergeStake validator.pubkey from_stake.1 to_stake.1
            from_stake.2.seed to_stake.2.seed)
      else tryMergeLoop s c rest
    | _ => tryMergeLoop s c rest

/-- `SolidoState::try_merge_on_all_stakes`. -/
def SolidoState.try_merge_on_all_stakes (s : SolidoState) (c : Collab) :
    Option MaintenanceOutput :=
  tryMergeLoop s c (s.validators.zip s.validator_stake_accounts)

/-- `SolidoState::try_update_exchange_rate`. -/
def SolidoState.try_update_exchange_rate (s : SolidoState) : Option MaintenanceOutput :=
  if s.clock.epoch ≤ s.solido.exchange_rate.computed_in_epoch then
    none
  else
    some MaintenanceOutput.UpdateExchangeRate

/-- The loop body of `do_update_onchain_validator_perfs` over the remaining
(validator, vote account, perf record) triples. -/
def updateOnchainLoop (s : SolidoState) :
    List (Validator × Option VoteState × Option ValidatorPerf) →
    Option MaintenanceOutput
  | [] => none
  | (validator, vote_state, maybe_perf) :: rest =>
    match vote_state with
    | none => updateOnchainLoop s rest
    | some vote_state =>
      let expired :=
        (match maybe_perf with
          | none => true
          | some perf => decide (perf.commission_updated_at < s.clock.epoch))
        && s.is_at_epoch_end
      let current_commission := vote_state.commission
      let exceeds_max :=
        match maybe_perf with
        | none => false
        | some perf =>
          decide (s.solido.criteria.max_commission < current_commission)
          && decide (perf.commission < current_commission)
      let should_update := expired || exceeds_max
      if should_update then
        some (MaintenanceOutput.UpdateOnchainValidatorPerf validator.pubkey)
      else
        updateOnchainLoop s rest

/-- `SolidoState::do_update_onchain_validator_perfs`. -/
def SolidoState.do_update_onchain_validator_perfs (s : SolidoState) :
    Option MaintenanceOutput :=
  updateOnchainLoop s (s.validators.zip (s.validator_vote_accounts.zip s.validator_perfs))

/-- The loop body of `do_update_offchain_validator_perfs`. -/
def updateOffchainLoop (s : SolidoState) (c : Collab) :
    List (Validator × Option ValidatorPerf × Option VoteState × Option Nat) →
    Option MaintenanceOutput
  | [] => none
  | (validator, perf, vote_state, rate) :: rest =>
    let should_update :=
      match perf with
      | none => true
      | some perf =>
        match perf.rest with
        | none => true
        | some r => decide (r.updated_at < s.clock.epoch)
    if !should_update then
      updateOffchainLoop s c rest
    else
      match vote_state with
      | none => updateOffchainLoop s c rest
      | some vote_state =>
        let block_production_rate := rate.getD (2 ^ 64 - 1)
        let slots_per_epoch := s.epoch_schedule.get_slots_in_epoch s.clock.epoch
        let vote_success_rate := c.per64 (min vote_state.credits slots_per_epoch) slots_per_epoch
        some (MaintenanceOutput.UpdateOffchainValidatorPerf validator.pubkey
          block_production_rate vote_success_rate)

/-- `SolidoState::do_update_offchain_validator_perfs`. -/
def SolidoState.do_update_offchain_validator_perfs (s : SolidoState) (c : Collab) :
    Option MaintenanceOutput :=
  if !s.is_at_epoch_end then
    none
  else
    updateOffchainLoop s c
      (s.validators.zip (s.validator_perfs.zip
        (s.validator_vote_accounts.zip s.validator_block_production_rates)))

/-- `SolidoState::try_update_validator_perfs`: on-chain first, then off-chain. -/
def SolidoState.try_update_validator_perfs (s : SolidoState) (c : Collab) :
    Option MaintenanceOutput :=
  (s.do_update_onchain_validator_perfs).orElse
    (fun _ => s.do_update_offchain_validator_perfs c)

/-- The loop body of `try_reactivate_if_complies`. -/
def reactivateLoop (s : SolidoState) (c : Collab) :
    List (Validator × Option VoteState × Option ValidatorPerf) →
    Option MaintenanceOutput
  | [] => none
  | (validator, vote_state, perf) :: rest =>
    if validator.is_inactive
        && (match vote_state with
            | none => false
            | some vs => c.does_perform_well s.solido.criteria vs.commission perf) then
      some (MaintenanceOutput.ReactivateIfComplies validator.pubkey)
    else
      reactivateLoop s c rest

/-- `SolidoState::try_reactivate_if_complies`. -/
def SolidoState.try_reactivate_if_complies (s : SolidoState) (c : Collab) :
    Option MaintenanceOutput :=
  if !s.is_at_epoch_end then
    none
  else
    reactivateLoop s c
      (s.validators.zip (s.validator_vote_accounts.zip s.validator_perfs))

/-- The loop body of `try_unstake_from_inactive_validator`.  Note that a
failing `get_unstake_instruction` aborts the whole loop (the Rust `?`
operator returns `None` from the enclosing function, it does not continue
with the next validator). -/
def unstakeInactiveLoop (s : SolidoState) (c : Collab) :
    List (Validator × List (Pubkey × StakeAccount)) → Option MaintenanceOutput
  | [] => none
  | (validator, stake_accounts) :: rest =>
    if validator.is_active then
      unstakeInactiveLoop s c rest
    else if MAXIMUM_UNSTAKE_ACCOUNTS ≤
        validator.unstake_seeds.end_ - validator.unstake_seeds.begin_ then
      unstakeInactiveLoop s c rest
    else
      match stake_accounts with
      | [] => unstakeInactiveLoop s c rest
      | first :: _ =>
        match s.get_unstake_instruction c validator first first.2.balance.total with
        | none => none
        | some unstake_account =>
          some (MaintenanceOutput.UnstakeFromInactiveValidator
            { validator_vote_account := validator.pubkey
              from_stake_account := first.1
              to_unstake_account := unstake_account
              from_stake_seed := validator.stake_seeds.begin_
              to_unstake_seed := validator.unstake_seeds.end_
              amount := first.2.balance.total })

/-- `SolidoState::try_unstake_from_inactive_validator`. -/
def SolidoState.try_unstake_from_inactive_validator (s : SolidoState) (c : Collab) :
    Option MaintenanceOutput :=
  unstakeInactiveLoop s c (s.validators.zip s.validator_stake_accounts)

/-- The total balance summed over a validator's stake accounts
(the `total_stake_balance` accumulator; the `expect`ed overflow cannot occur
over `Nat`). -/
def totalStakeBalance (stake_accounts : List (Pubkey × StakeAccount)) : Nat :=
  stake_accounts.foldl (fun acc d => acc + d.2.balance.total) 0

/-- The withdrawable inactive stake summed over a validator's stake accounts
(the `can_be_withdrawn` accumulator).  Each subtraction `inactive - rent` is
`expect`ed not to underflow in Rust; here it truncates at zero. -/
def canBeWithdrawn (stake_rent : Nat) (stake_accounts : List (Pubkey × StakeAccount)) : Nat :=
  stake_accounts.foldl (fun acc d => acc + (d.2.balance.inactive - stake_rent)) 0

/-- The `removed_unstake` accumulator: sums unstake account balances from the
front of the list, stopping at the first account that is not fully
inactive. -/
def removedUnstake : List (Pubkey × StakeAccount) → Nat
  | [] => 0
  | (_, unstake_account) :: rest =>
    if unstake_account.balance.inactive = unstake_account.balance.total then
      unstake_account.balance.total + removedUnstake rest
    else
      0

/-- The loop body of `try_update_stake_account_balance` over the remaining
(validator, stake accounts, unstake accounts) triples. -/
def updateBalanceLoop (s : SolidoState) :
    List (Validator × List (Pubkey × StakeAccount) × List (Pubkey × StakeAccount)) →
    Option MaintenanceOutput
  | [] => none
  | (validator, stake_accounts, unstake_accounts) :: rest =>
    let stake_rent := s.rent.minimum_balance STAKE_STATE_SIZE
    let total_stake_balance := totalStakeBalance stake_accounts
    let can_be_withdrawn := canBeWithdrawn stake_rent stake_accounts
    let expected_difference_stake :=
      if validator.effective_stake_balance < total_stake_balance then
        total_stake_balance - validator.effective_stake_balance
      else
        can_be_withdrawn
    let removed_unstake := removedUnstake unstake_accounts
    if MINIMUM_WITHDRAW_AMOUNT < expected_difference_stake || 0 < removed_unstake then
      some (MaintenanceOutput.UpdateStakeAccountBalance validator.pubkey
        expected_difference_stake removed_unstake)
    else
      updateBalanceLoop s rest

/-- `SolidoState::try_update_stake_account_balance`. -/
def SolidoState.try_update_stake_account_balance (s : SolidoState) :
    Option MaintenanceOutput :=
  updateBalanceLoop s
    (s.validators.zip (s.validator_stake_accounts.zip s.validator_unstake_accounts))

/-- The loop body of `try_deactivate_if_violates`. -/
def deactivateLoop (s : SolidoState) (c : Collab) :
    List (Validator × Option VoteState × Option ValidatorPerf) →
    Option MaintenanceOutput
  | [] => none
  | (validator, vote_state, perf) :: rest =>
    if !validator.is_active then
      deactivateLoop s c rest
    else if (match vote_state with
        | none => false
        | some vs => c.does_perform_well s.solido.criteria vs.commission perf) then
      deactivateLoop s c rest
    else
      some (MaintenanceOutput.DeactivateIfViolates validator.pubkey)

/-- `SolidoState::try_deactivate_if_violates`. -/
def SolidoState.try_deactivate_if_violates (s : SolidoState) (c : Collab) :
    Option MaintenanceOutput :=
  deactivateLoop s c (s.validators.zip (s.validator_vote_accounts.zip s.validator_perfs))

/-- `SolidoState::try_stake_deposit`.  The Rust indexes
`self.validators.entries[validator_index]` and
`self.validator_stake_accounts[validator_index]` with the index supplied by
the allocator, which per its contract is in range; out-of-range indexing
(a Rust panic) is modelled by the `getD` defaults. -/
def SolidoState.try_stake_deposit (s : SolidoState) (c : Collab) :
    Option MaintenanceOutput :=
  match s.confirm_should_stake_unstake_in_current_slot with
  | none => none
  | some _ =>
  match s.validators.find? Validator.is_active with
  | none => none
  | some _ =>
    let reserve_balance := s.get_effective_reserve
    let undelegated_lamports := reserve_balance
    let targets := c.get_target_balance undelegated_lamports s.validators
    let vi_amount := c.get_minimum_stake_validator_index_amount s.validators targets
    let validator_index := vi_amount.1
    let amount_below_target := vi_amount.2
    let validator := s.validators.getD validator_index default
    let amount_to_deposit := max (min amount_below_target reserve_balance)
      MINIMUM_STAKE_ACCOUNT_BALANCE
    if reserve_balance < amount_to_deposit then
      none
    else
      let ends :=
        match (s.validator_stake_accounts.getD validator_index []).getLast? with
        | some (addr, account) =>
          if account.activation_epoch = s.clock.epoch then
            (c.find_temporary_stake_account_address validator
              validator.stake_seeds.end_ s.clock.epoch, addr)
          else
            let a := c.find_stake_account_address validator
              validator.stake_seeds.end_ StakeType.Stake
            (a, a)
        | none =>
          let a := c.find_stake_account_address validator
            validator.stake_seeds.end_ StakeType.Stake
          (a, a)
      let stake_account_end := ends.1
      match Maintainer.listPosition s.maintainers s.maintainer_address with
      | none => none
      | some _ =>
        some (MaintenanceOutput.StakeDeposit validator.pubkey stake_account_end
          amount_to_deposit)

/-- `SolidoState::try_unstake_from_active_validators`. -/
def SolidoState.try_unstake_from_active_validators (s : SolidoState) (c : Collab) :
    Option MaintenanceOutput :=
  match s.confirm_should_stake_unstake_in_current_slot with
  | none => none
  | some _ =>
  match s.validators.find? Validator.is_active with
  | none => none
  | some _ =>
    let targets := c.get_target_balance s.get_effective_reserve s.validators
    match c.get_unstake_validator_index s.validators targets UNBALANCE_THRESHOLD with
    | none => none
    | some (validator_index, unstake_amount) =>
      let validator := s.validators.getD validator_index default
      match (s.validator_stake_accounts.getD validator_index []).head? with
      | none => none
      | some stake_account =>
        let maximum_unstake :=
          stake_account.2.balance.total - MINIMUM_STAKE_ACCOUNT_BALANCE
        let amount := min unstake_amount maximum_unstake
        if amount < MINIMUM_STAKE_ACCOUNT_BALANCE then
          none
        else
          match s.get_unstake_instruction c validator stake_account amount with
          | none => none
          | some unstake_account =>
            some (MaintenanceOutput.UnstakeFromActiveValidator
              { validator_vote_account := validator.pubkey
                from_stake_account := stake_account.1
                to_unstake_account := unstake_account
                from_stake_seed := validator.stake_seeds.begin_
                to_unstake_seed := validator.unstake_seeds.end_
                amount := amount })

/-- The loop body of `try_remove_pending_validators`. -/
def removePendingLoop (c : Collab) : List Validator → Option MaintenanceOutput
  | [] => none
  | validator :: rest =>
    if c.check_can_be_removed validator then
      some (MaintenanceOutput.RemoveValidator validator.pubkey)
    else
      removePendingLoop c rest

/-- `SolidoState::try_remove_pending_validators`. -/
def SolidoState.try_remove_pending_validators (s : SolidoState) (c : Collab) :
    Option MaintenanceOutput :=
  removePendingLoop c s.validators

/-- The errors `try_perform_maintenance` can surface.  Submission failures
belong to the external submitter (out of scope per the spec), so the only
variant is the underfunded-maintainer configuration error. -/
inductive MaintenanceError where
  | MaintainerBalanceTooLow (maintainer_address : Pubkey)
deriving DecidableEq, Repr

/-- The balance the funding guard inspects: the balance zipped with the first
maintainer-list entry whose key equals the acting maintainer's address
(`.iter().zip(..).filter(..).map(..).next()`). -/
def SolidoState.found_maintainer_balance (s : SolidoState) : Option Nat :=
  ((s.maintainers.zip s.maintainer_balances).find?
    (fun mb => mb.1.pubkey == s.maintainer_address)).map Prod.snd

/-- The `or_else` chain of `try_perform_maintenance`: try the checks one by
one and select the first that produces an instruction. -/
def SolidoState.select_maintenance_action (s : SolidoState) (c : Collab) :
    Option MaintenanceOutput :=
  ((((((((((none : Option MaintenanceOutput).orElse
    (fun _ => s.try_merge_on_all_stakes c)).orElse
    (fun _ => s.try_update_exchange_rate)).orElse
    (fun _ => s.try_update_validator_perfs c)).orElse
    (fun _ => s.try_reactivate_if_complies c)).orElse
    (fun _ => s.try_unstake_from_inactive_validator c)).orElse
    (fun _ => s.try_update_stake_account_balance)).orElse
    (fun _ => s.try_deactivate_if_violates c)).orElse
    (fun _ => s.try_stake_deposit c)).orElse
    (fun _ => s.try_unstake_from_active_validators c)).orElse
    (fun _ => s.try_remove_pending_validators c)

/-- `try_perform_maintenance`: the funding guard followed by the check chain.
Submission (`sign_and_send_transaction`) is the external collaborator and is
not modelled; a produced action is returned as `ok (some output)`. -/
def try_perform_maintenance (s : SolidoState) (c : Collab) :
    Except MaintenanceError (Option MaintenanceOutput) :=
  match s.found_maintainer_balance with
  | some balance =>
    if balance < minimum_maintainer_balance then
      Except.error (MaintenanceError.MaintainerBalanceTooLow s.maintainer_address)
    else
      Except.ok (s.select_maintenance_action c)
  | none => Except.ok (s.select_maintenance_action c)

/-- First non-`none` entry of a list of optional results. -/
def firstSome : List (Option MaintenanceOutput) → Option MaintenanceOutput
  | [] => none
  | some x :: _ => some x
  | none :: rest => firstSome rest

/-- The trigger of the on-chain commission update, worded as in the spec:
a live vote account, and either the record is stale (or absent) while the
epoch-end timing gate holds, or the live commission exceeds both the policy
maximum and the previously recorded commission (which presupposes a
record). -/
def onchainUpdateTrigger (s : SolidoState)
    (t : Validator × Option VoteState × Option ValidatorPerf) : Bool :=
  match t.2.1 with
  | none => false
  | some vs =>
    ((match t.2.2 with
      | none => true
      | some perf => decide (perf.commission_updated_at < s.clock.epoch))
        && s.is_at_epoch_end)
    || (match t.2.2 with
        | none => false
        | some perf =>
          decide (s.solido.criteria.max_commission < vs.commission)
            && decide (perf.commission < vs.commission))

/-- A validator from which `try_unstake_from_inactive_validator` would
unstake: not active, fewer than the maximum allowed unstake accounts, and at
least one stake account. -/
def unstakeInactiveCandidate (t : Validator × List (Pubkey × StakeAccount)) : Bool :=
  !t.1.is_active
    && decide (t.1.unstake_seeds.end_ - t.1.unstake_seeds.begin_ < MAXIMUM_UNSTAKE_ACCOUNTS)
    && !t.2.isEmpty

/-- The unstake action produced for such a validator: the full total balance
of its first stake account. -/
def mkUnstakeFromInactive (c : Collab)
    (t : Validator × List (Pubkey × StakeAccount)) : MaintenanceOutput :=
  MaintenanceOutput.UnstakeFromInactiveValidator
    { validator_vote_account := t.1.pubkey
      from_stake_account := (t.2.headD default).1
      to_unstake_account :=
        c.find_stake_account_address t.1 t.1.unstake_seeds.end_ StakeType.Unstake
      from_stake_seed := t.1.stake_seeds.begin_
      to_unstake_seed := t.1.unstake_seeds.end_
      amount := (t.2.headD default).2.balance.total }

/-! ## Concrete instances used to evaluate the theorems -/

/-- The Solana default epoch schedule with warm-up, restricted to the warm-up
epochs the examples use: epoch `e` starts at slot `32 * (2^e - 1)` and has
`32 * 2^e` slots (epoch 1 spans `[32, 96)`). -/
def defaultEpochSchedule : EpochSchedule where
  get_first_slot_in_epoch := fun e => 32 * (2 ^ e - 1)
  get_slots_in_epoch := fun e => 32 * 2 ^ e

/-- An empty pool snapshot; concrete states below override single fields. -/
def baseState : SolidoState where
  solido := { exchange_rate := { computed_in_epoch := 0 }, criteria := { max_commission := 5 } }
  validators := []
  validator_stake_accounts := []
  validator_unstake_accounts := []
  validator_vote_accounts := []
  validator_perfs := []
  validator_block_production_rates := []
  maintainers := []
  maintainer_balances := []
  reserve_account_lamports := 0
  rent := { minimum_balance := fun _ => 0 }
  clock := { slot := 0, epoch := 0 }
  epoch_schedule := defaultEpochSchedule
  maintainer_address := 1
  stake_time := StakeTime.Anytime
  end_of_epoch_threshold := 95

/-- A collaborator instance with inert black boxes, for evaluating the
theorems on concrete snapshots. -/
def trivialCollab : Collab where
  get_target_balance := fun _ _ => []
  get_minimum_stake_validator_index_amount := fun _ _ => (0, 0)
  get_unstake_validator_index := fun _ _ _ => none
  does_perform_well := fun _ _ _ => true
  can_merge := fun _ _ => false
  check_can_be_removed := fun _ => false
  find_stake_account_address := fun _ _ _ => 0
  find_temporary_stake_account_address := fun _ _ _ => 0
  per64 := fun _ _ => 0

/-- One maintainer with key 5, observed at slot 0. -/
def dutyState : SolidoState :=
  { baseState with maintainers := [⟨5⟩] }

/-- Timing gate in `OnlyNearEpochEnd` mode with threshold 50, observed at
slot 64 of epoch 1 (the epoch spans `[32, 96)`), so the epoch progress is
exactly `32/64 = 50/100`: the ratio equals the threshold. -/
def epochGateEqState : SolidoState :=
  { baseState with
    stake_time := StakeTime.OnlyNearEpochEnd
    end_of_epoch_threshold := 50
    clock := { slot := 64, epoch := 1 } }

/-- Timing gate in `OnlyNearEpochEnd` mode with threshold 95, observed at
slot 93 of epoch 1: progress `61/64` is strictly past `95/100`. -/
def epochGateHighState : SolidoState :=
  { baseState with
    stake_time := StakeTime.OnlyNearEpochEnd
    clock := { slot := 93, epoch := 1 } }

/-- The acting maintainer (key 1) is listed but underfunded. -/
def underfundedState : SolidoState :=
  { baseState with
    maintainers := [⟨1⟩]
    maintainer_balances := [99999999] }

/-- The acting maintainer (key 1) is not in the maintainer list, and the one
listed maintainer has a tiny balance. -/
def nonMemberState : SolidoState :=
  { baseState with
    maintainers := [⟨2⟩]
    maintainer_balances := [0] }

/-- An inactive validator (key 11) with one stake account and room for
unstake accounts. -/
def inactiveValidator : Validator where
  pubkey := 11
  active := false
  stake_seeds := ⟨0, 1⟩
  unstake_seeds := ⟨0, 0⟩
  effective_stake_balance := 5000000000

/-- Its one stake account: address 21, 5 SOL fully active. -/
def inactiveValidatorStakeAccount : Pubkey × StakeAccount :=
  (21, { balance := ⟨0, 0, 5000000000, 0⟩, seed := 0, activation_epoch := 0 })

/-- A snapshot with the inactive validator above; the acting maintainer is
not a member of the (empty) maintainer list. -/
def inactiveUnstakeState : SolidoState :=
  { baseState with
    validators := [inactiveValidator]
    validator_stake_accounts := [[inactiveValidatorStakeAccount]]
    validator_unstake_accounts := [[]]
    validator_vote_accounts := [none]
    validator_perfs := [none]
    validator_block_production_rates := [none] }

/-- The same snapshot with the acting maintainer (key 1) a funded member. -/
def inactiveUnstakeMemberState : SolidoState :=
  { inactiveUnstakeState with
    maintainers := [⟨1⟩]
    maintainer_balances := [200000000] }

/-- An active validator (key 11) with no stake accounts. -/
def activeValidator : Validator where
  pubkey := 11
  active := true
  stake_seeds := ⟨0, 0⟩
  unstake_seeds := ⟨0, 0⟩
  effective_stake_balance := 0

/-- A snapshot with the active validator above and three minimum stake
balances in the reserve; the acting maintainer is not a member of the
(empty) maintainer list. -/
def stakeDepositState : SolidoState :=
  { baseState with
    validators := [activeValidator]
    validator_stake_accounts := [[]]
    validator_unstake_accounts := [[]]
    validator_vote_accounts := [none]
    validator_perfs := [none]
    validator_block_production_rates := [none]
    reserve_account_lamports := 3 * MINIMUM_STAKE_ACCOUNT_BALANCE }

/-- The same snapshot with the acting maintainer a funded member and the
reserve one lamport short of the minimum stake-account floor. -/
def stakeDepositShortState : SolidoState :=
  { stakeDepositState with
    maintainers := [⟨1⟩]
    maintainer_balances := [200000000]
    reserve_account_lamports := MINIMUM_STAKE_ACCOUNT_BALANCE - 1 }

/-- A collaborator whose allocator reports the first validator as two
minimum stake balances below its target. -/
def belowTargetCollab : Collab :=
  { trivialCollab with
    get_minimum_stake_validator_index_amount :=
      fun _ _ => (0, 2 * MINIMUM_STAKE_ACCOUNT_BALANCE) }

/-! ## Helper lemmas -/

theorem findIdx?_some_bound {α : Type} [Inhabited α] {p : α → Bool} {l : List α}
    {i : Nat} (h : l.findIdx? p = some i) :
    i < l.length ∧ p (l.getD i default) = true := by
  rw [List.findIdx?_eq_some_iff_getElem] at h
  obtain ⟨hi, hp, -⟩ := h
  refine ⟨hi, ?_⟩
  rw [List.getD_eq_getElem?_getD, List.getElem?_eq_getElem hi]
  exact hp

/-- Any `some` result of `get_next_maintainer_duty_slot` is a multiple of the
slice length, congruent to the maintainer's list index modulo the list
length, and strictly beyond the current slot. -/
theorem next_duty_slot_shape (s : SolidoState) (m : Pubkey) {t : Nat}
    (h : s.get_next_maintainer_duty_slot m = some t) :
    ∃ T idx, s.maintainers.findIdx? (fun x => x.pubkey == m) = some idx ∧
      t = 100 * T ∧ T % s.maintainers.length = idx ∧ s.clock.slot < t := by
  unfold SolidoState.get_next_maintainer_duty_slot at h
  cases he : s.maintainers.isEmpty with
  | true => rw [he] at h; simp at h
  | false =>
    rw [he] at h
    simp only [Bool.false_eq_true, if_false] at h
    cases hf : s.maintainers.findIdx? (fun x => x.pubkey == m) with
    | none => rw [hf] at h; simp at h
    | some idx =>
      rw [hf] at h
      simp only [MAINTAINER_DUTY_SLICE_LENGTH] at h
      have hidx : idx < s.maintainers.length := (findIdx?_some_bound hf).1
      have hlen : 0 < s.maintainers.length := by omega
      set len := s.maintainers.length with hlendef
      set c := len * 100 with hc
      have hcpos : 0 < c := Nat.mul_pos hlen (by norm_num)
      set q := s.clock.slot / c with hq
      have hslot : s.clock.slot < q * c + c := by
        have h1 := Nat.div_add_mod s.clock.slot c
        have h2 := Nat.mod_lt s.clock.slot hcpos
        calc s.clock.slot = c * q + s.clock.slot % c := h1.symm
          _ < c * q + c := Nat.add_lt_add_left h2 _
          _ = q * c + c := by rw [Nat.mul_comm]
      split at h
      · -- the maintainer's slice in this cycle already started: next cycle
        have ht : q * c + idx * 100 + c = t := Option.some.inj h
        refine ⟨q * len + idx + len, idx, rfl, ?_, ?_, ?_⟩
        · rw [← ht, hc]; ring
        · have : q * len + idx + len = idx + len * (q + 1) := by ring
          rw [this, Nat.add_mul_mod_self_left, Nat.mod_eq_of_lt hidx]
        · calc s.clock.slot < q * c + c := hslot
            _ ≤ q * c + idx * 100 + c := by
              have := Nat.le_add_right (q * c) (idx * 100)
              omega
            _ = t := ht
      · -- the slice has not started yet in this cycle
        have ht : q * c + idx * 100 = t := Option.some.inj h
        rename_i hgt
        refine ⟨q * len + idx, idx, rfl, ?_, ?_, ?_⟩
        · rw [← ht, hc]; ring
        · have : q * len + idx = idx + len * q := by ring
          rw [this, Nat.add_mul_mod_self_left, Nat.mod_eq_of_lt hidx]
        · rw [← ht]; omega

/-- `get_next_maintainer_duty_slot` is `none` exactly for an empty list or a
non-member key. -/
theorem next_duty_slot_none_iff (s : SolidoState) (m : Pubkey) :
    s.get_next_maintainer_duty_slot m = none ↔
      s.maintainers = [] ∨ ∀ x ∈ s.maintainers, x.pubkey ≠ m := by
  by_cases he : s.maintainers = []
  · simp [SolidoState.get_next_maintainer_duty_slot, he]
  · unfold SolidoState.get_next_maintainer_duty_slot
    rw [if_neg (by simpa [List.isEmpty_iff] using he)]
    cases hf : s.maintainers.findIdx? (fun x => x.pubkey == m) with
    | none =>
      rw [List.findIdx?_eq_none_iff] at hf
      constructor
      · intro _
        right
        intro x hx
        simpa using hf x hx
      · intro _
        rfl
    | some idx =>
      constructor
      · intro hcontra
        split at hcontra
        · simp_all
        · dsimp only at hcontra
          split at hcontra <;> simp_all
      · rintro (h1 | h2)
        · exact absurd h1 he
        · exfalso
          obtain ⟨hidx, hpred⟩ := findIdx?_some_bound hf
          have hg : s.maintainers.getD idx default = s.maintainers[idx] := by
            rw [List.getD_eq_getElem?_getD, List.getElem?_eq_getElem hidx]
            rfl
          refine h2 s.maintainers[idx] (List.getElem_mem hidx) ?_
          rw [← hg]
          simpa using hpred

/-! ## Claims C4, C5, C6: the maintainer duty scheduler -/

/-- Claim C4: `get_current_maintainer_duty` returns `None` when the
maintainer list is empty or the slot falls in the final 10 slots of its
100-slot duty slice, and otherwise returns
`maintainers[(slot / 100) mod maintainer_count]`; the `Option` return type
yields at most one maintainer on duty at any slot. -/
theorem claim_C4 (s : SolidoState) :
    s.get_current_maintainer_duty =
      if s.maintainers = [] ∨ 100 - 10 ≤ s.clock.slot % 100 then none
      else
        some ((s.maintainers.getD (s.clock.slot / 100 % s.maintainers.length)
          default).pubkey) := by
  unfold SolidoState.get_current_maintainer_duty
  simp only [MAINTAINER_DUTY_SLICE_LENGTH, MAINTAINER_DUTY_PAUSE_LENGTH]
  by_cases h1 : s.maintainers = []
  · simp [h1, List.isEmpty_iff]
  · by_cases h2 : 100 - 10 ≤ s.clock.slot % 100
    · simp [List.isEmpty_iff, h1, h2]
    · simp [List.isEmpty_iff, h1, h2]

/-- Claim C5: `get_next_maintainer_duty_slot` returns `None` exactly when the
maintainer list is empty or the key is not a member, and any returned slot is
strictly greater than the snapshot's current slot (hence feeding each result
back as the current slot yields a strictly increasing sequence). -/
theorem claim_C5 (s : SolidoState) (m : Pubkey) :
    (s.get_next_maintainer_duty_slot m = none ↔
      s.maintainers = [] ∨ ∀ x ∈ s.maintainers, x.pubkey ≠ m) ∧
    ∀ t, s.get_next_maintainer_duty_slot m = some t → s.clock.slot < t := by
  refine ⟨next_duty_slot_none_iff s m, fun t h => ?_⟩
  obtain ⟨T, idx, -, -, -, hlt⟩ := next_duty_slot_shape s m h
  exact hlt

/-- Claim C6: round trip between the next-duty-slot function and the
current-duty function: from the start slot `t` that
`get_next_maintainer_duty_slot` returns for member `m`, the 90 slots
`[t, t + 100 - 10)` all assign duty to `m`, and the 10-slot pause window
`[t - 10, t)` immediately preceding `t` assigns duty to nobody. -/
theorem claim_C6 (s : SolidoState) (m : Pubkey) {t : Nat}
    (h : s.get_next_maintainer_duty_slot m = some t) :
    (∀ u, t ≤ u → u < t + (100 - 10) →
      (s.atSlot u).get_current_maintainer_duty = some m) ∧
    (∀ u, t - 10 ≤ u → u < t →
      (s.atSlot u).get_current_maintainer_duty = none) := by
  obtain ⟨T, idx, hf, ht, hmod, hlt⟩ := next_duty_slot_shape s m h
  obtain ⟨hidx, hpred⟩ := findIdx?_some_bound hf
  have hne : s.maintainers ≠ [] := by
    intro hcontra
    rw [hcontra] at hf
    simp at hf
  have hT : 0 < T := by omega
  constructor
  · intro u hu1 hu2
    have hmod100 : u % 100 < 100 - 10 := by omega
    have hdiv100 : u / 100 = T := by omega
    unfold SolidoState.get_current_maintainer_duty
    simp only [SolidoState.atSlot, MAINTAINER_DUTY_SLICE_LENGTH,
      MAINTAINER_DUTY_PAUSE_LENGTH]
    rw [if_neg (by simpa [List.isEmpty_iff] using hne), if_neg (by omega)]
    rw [hdiv100, hmod, Option.some_inj]
    simpa using hpred
  · intro u hu1 hu2
    have hmod100 : 100 - 10 ≤ u % 100 := by omega
    unfold SolidoState.get_current_maintainer_duty
    simp only [SolidoState.atSlot, MAINTAINER_DUTY_SLICE_LENGTH,
      MAINTAINER_DUTY_PAUSE_LENGTH]
    by_cases he : s.maintainers.isEmpty
    · rw [if_pos he]
    · rw [if_neg he, if_pos (by omega)]

theorem claim_C5_witness : dutyState.clock.slot < 100 :=
  (claim_C5 dutyState 5).2 100 (by decide)

theorem claim_C6_witness :
    (dutyState.atSlot 100).get_current_maintainer_duty = some 5 ∧
    (dutyState.atSlot 95).get_current_maintainer_duty = none :=
  ⟨(@claim_C6 dutyState 5 100 (by decide)).1 100 (by decide) (by decide),
   (@claim_C6 dutyState 5 100 (by decide)).2 95 (by decide) (by decide)⟩

/-! ## Claim C2: the stake/unstake timing gate -/

/-- Counterexample to claim C2 as stated: in `OnlyNearEpochEnd` mode, at a
slot where the epoch-progress ratio equals the threshold ratio exactly
(cross-multiplication equality, third conjunct), the gate does not permit.
The claim's "exact boundary inclusive at the threshold ratio (equality
permits)" predicts `some ()` here. -/
theorem claim_C2_counterexample :
    epochGateEqState.stake_time = StakeTime.OnlyNearEpochEnd ∧
    (epochGateEqState.clock.slot -
        epochGateEqState.epoch_schedule.get_first_slot_in_epoch
          epochGateEqState.clock.epoch) * 100 =
      epochGateEqState.end_of_epoch_threshold *
        (epochGateEqState.epoch_schedule.get_first_slot_in_epoch
            (epochGateEqState.clock.epoch + 1) -
          epochGateEqState.epoch_schedule.get_first_slot_in_epoch
            epochGateEqState.clock.epoch) ∧
    epochGateEqState.confirm_should_stake_unstake_in_current_slot = none := by
  refine ⟨rfl, by decide, by decide⟩

/-- Claim C2 as amended: `Anytime` always permits; `OnlyNearEpochEnd`
permits exactly when the ratio of slots elapsed in the current epoch over
slots in the current epoch strictly exceeds `end_of_epoch_threshold/100`
under cross-multiplication — the boundary is exclusive: equality does not
permit.  The two hypotheses restrict to clocks consistent with the epoch
schedule, where the Rust `checked_sub ... expect` calls do not panic. -/
theorem claim_C2_amended (s : SolidoState)
    (_h1 : s.epoch_schedule.get_first_slot_in_epoch s.clock.epoch ≤ s.clock.slot)
    (_h2 : s.epoch_schedule.get_first_slot_in_epoch s.clock.epoch ≤
      s.epoch_schedule.get_first_slot_in_epoch (s.clock.epoch + 1)) :
    (s.stake_time = StakeTime.Anytime →
      s.confirm_should_stake_unstake_in_current_slot = some ()) ∧
    (s.stake_time = StakeTime.OnlyNearEpochEnd →
      (s.confirm_should_stake_unstake_in_current_slot = some () ↔
        (s.epoch_schedule.get_first_slot_in_epoch (s.clock.epoch + 1) -
            s.epoch_schedule.get_first_slot_in_epoch s.clock.epoch ≠ 0 ∧
          s.end_of_epoch_threshold *
              (s.epoch_schedule.get_first_slot_in_epoch (s.clock.epoch + 1) -
                s.epoch_schedule.get_first_slot_in_epoch s.clock.epoch) <
            (s.clock.slot -
                s.epoch_schedule.get_first_slot_in_epoch s.clock.epoch) * 100))) := by
  constructor
  · intro hA
    unfold SolidoState.confirm_should_stake_unstake_in_current_slot
    rw [hA]
  · intro hO
    unfold SolidoState.confirm_should_stake_unstake_in_current_slot
    rw [hO]
    dsimp only
    by_cases hgt : Rational.gt
        ⟨s.clock.slot - s.epoch_schedule.get_first_slot_in_epoch s.clock.epoch,
          s.epoch_schedule.get_first_slot_in_epoch (s.clock.epoch + 1) -
            s.epoch_schedule.get_first_slot_in_epoch s.clock.epoch⟩
        ⟨s.end_of_epoch_threshold, 100⟩
    · rw [if_pos hgt]
      simp only [Rational.gt, Bool.and_eq_true, bne_iff_ne, ne_eq,
        decide_eq_true_eq] at hgt
      simp only [true_iff]
      exact ⟨hgt.1.1, hgt.2⟩
    · rw [if_neg hgt]
      simp only [Rational.gt, Bool.and_eq_true, bne_iff_ne, ne_eq,
        decide_eq_true_eq] at hgt
      constructor
      · intro hcontra
        exact absurd hcontra (by simp)
      · intro hrhs
        exact absurd ⟨⟨hrhs.1, by norm_num⟩, hrhs.2⟩ hgt

theorem claim_C2_witness :
    epochGateHighState.confirm_should_stake_unstake_in_current_slot = some () :=
  ((claim_C2_amended epochGateHighState (by decide) (by decide)).2 rfl).mpr (by decide)

/-! ## Claims C7, C10, C1: the dispatcher -/

/-- Claim C7: with the balance recorded for the acting maintainer below the
funding floor of 100_000_000 lamports, `try_perform_maintenance` returns the
configuration error before evaluating any check — the error return models
the Rust early `return Err(..)` that precedes the whole `or_else` chain, so
no check is evaluated and nothing is submitted. -/
theorem claim_C7 (s : SolidoState) (c : Collab) {b : Nat}
    (hb : s.found_maintainer_balance = some b)
    (hlow : b < minimum_maintainer_balance) :
    try_perform_maintenance s c =
      Except.error (MaintenanceError.MaintainerBalanceTooLow s.maintainer_address) := by
  unfold try_perform_maintenance
  rw [hb]
  change (if b < minimum_maintainer_balance then
      Except.error (MaintenanceError.MaintainerBalanceTooLow s.maintainer_address)
    else Except.ok (s.select_maintenance_action c)) = _
  rw [if_pos hlow]

theorem claim_C7_witness :
    try_perform_maintenance underfundedState trivialCollab =
      Except.error (MaintenanceError.MaintainerBalanceTooLow 1) :=
  @claim_C7 underfundedState trivialCollab 99999999 (by decide) (by decide)

/-- Claim C10: when the acting maintainer's address is not in the maintainer
list, the funding guard is a no-op — `try_perform_maintenance` proceeds to
the check chain and never returns the underfunded-maintainer configuration
error, no matter how small any balance in the snapshot is. -/
theorem claim_C10 (s : SolidoState) (c : Collab)
    (h : ∀ x ∈ s.maintainers, x.pubkey ≠ s.maintainer_address) :
    try_perform_maintenance s c = Except.ok (s.select_maintenance_action c) := by
  unfold try_perform_maintenance
  have hfb : s.found_maintainer_balance = none := by
    unfold SolidoState.found_maintainer_balance
    rw [List.find?_eq_none.mpr, Option.map_none']
    intro mb hmb
    have hmem := (List.of_mem_zip hmb).1
    simpa using h mb.1 hmem
  rw [hfb]

theorem claim_C10_witness :
    try_perform_maintenance nonMemberState trivialCollab =
      Except.ok (nonMemberState.select_maintenance_action trivialCollab) :=
  claim_C10 nonMemberState trivialCollab (by decide)

theorem orElseChain_eq_firstSome (a : Option MaintenanceOutput)
    (l : List (Option MaintenanceOutput)) :
    l.foldl (fun acc o => acc.orElse (fun _ => o)) a =
      a.orElse (fun _ => firstSome l) := by
  induction l generalizing a with
  | nil => cases a <;> rfl
  | cons o rest ih =>
    rw [List.foldl_cons, ih]
    cases a <;> cases o <;> rfl

/-- The `or_else` chain picks the first check, in source order, that
produces an action. -/
theorem select_eq_firstSome (s : SolidoState) (c : Collab) :
    s.select_maintenance_action c = firstSome
      [s.try_merge_on_all_stakes c,
       s.try_update_exchange_rate,
       s.do_update_onchain_validator_perfs,
       s.do_update_offchain_validator_perfs c,
       s.try_reactivate_if_complies c,
       s.try_unstake_from_inactive_validator c,
       s.try_update_stake_account_balance,
       s.try_deactivate_if_violates c,
       s.try_stake_deposit c,
       s.try_unstake_from_active_validators c,
       s.try_remove_pending_validators c] := by
  have h := orElseChain_eq_firstSome none
    [s.try_merge_on_all_stakes c,
     s.try_update_exchange_rate,
     s.try_update_validator_perfs c,
     s.try_reactivate_if_complies c,
     s.try_unstake_from_inactive_validator c,
     s.try_update_stake_account_balance,
     s.try_deactivate_if_violates c,
     s.try_stake_deposit c,
     s.try_unstake_from_active_validators c,
     s.try_remove_pending_validators c]
  have hsel : s.select_maintenance_action c =
      (none : Option MaintenanceOutput).orElse (fun _ => firstSome
        [s.try_merge_on_all_stakes c,
         s.try_update_exchange_rate,
         s.try_update_validator_perfs c,
         s.try_reactivate_if_complies c,
         s.try_unstake_from_inactive_validator c,
         s.try_update_stake_account_balance,
         s.try_deactivate_if_violates c,
         s.try_stake_deposit c,
         s.try_unstake_from_active_validators c,
         s.try_remove_pending_validators c]) := h
  rw [hsel]
  show firstSome _ = firstSome _
  unfold SolidoState.try_update_validator_perfs
  cases s.try_merge_on_all_stakes c <;>
    cases s.try_update_exchange_rate <;>
      cases s.do_update_onchain_validator_perfs <;> rfl

/-- Claim C1: whenever the funding guard passes, `try_perform_maintenance`
evaluates the checks in the order merge, exchange rate, on-chain perf,
off-chain perf, reactivate, unstake-from-inactive, stake-account balance,
deactivate, stake deposit, unstake-from-active, remove-pending, and returns
the first produced action (at most one per call). -/
theorem claim_C1 (s : SolidoState) (c : Collab)
    (h : ∀ b, s.found_maintainer_balance = some b → minimum_maintainer_balance ≤ b) :
    try_perform_maintenance s c = Except.ok (firstSome
      [s.try_merge_on_all_stakes c,
       s.try_update_exchange_rate,
       s.do_update_onchain_validator_perfs,
       s.do_update_offchain_validator_perfs c,
       s.try_reactivate_if_complies c,
       s.try_unstake_from_inactive_validator c,
       s.try_update_stake_account_balance,
       s.try_deactivate_if_violates c,
       s.try_stake_deposit c,
       s.try_unstake_from_active_validators c,
       s.try_remove_pending_validators c]) := by
  unfold try_perform_maintenance
  cases hfb : s.found_maintainer_balance with
  | none => rw [select_eq_firstSome]
  | some b =>
    change (if b < minimum_maintainer_balance then
        Except.error (MaintenanceError.MaintainerBalanceTooLow s.maintainer_address)
      else Except.ok (s.select_maintenance_action c)) = _
    rw [if_neg (Nat.not_lt.mpr (h b hfb)), select_eq_firstSome]

theorem claim_C1_witness :
    try_perform_maintenance baseState trivialCollab = Except.ok none := by
  have h := claim_C1 baseState trivialCollab (fun b hb => nomatch hb)
  rw [h]
  rfl

/-! ## Claim C8: the on-chain commission update sub-step -/

/-- Claim C8: the on-chain commission update emits an update for the first
validator, in list order, with a live vote account whose record is stale or
absent while the epoch-end gate holds (first trigger, gated on timing), or
whose live commission exceeds both the policy maximum and the previously
recorded commission (second trigger, independent of timing).  The asymmetry
is encoded in `onchainUpdateTrigger`: only the staleness disjunct conjoins
`is_at_epoch_end`. -/
theorem claim_C8 (s : SolidoState) :
    s.do_update_onchain_validator_perfs =
      ((s.validators.zip (s.validator_vote_accounts.zip s.validator_perfs)).find?
        (onchainUpdateTrigger s)).map
        (fun t => MaintenanceOutput.UpdateOnchainValidatorPerf t.1.pubkey) := by
  unfold SolidoState.do_update_onchain_validator_perfs
  generalize s.validators.zip (s.validator_vote_accounts.zip s.validator_perfs) = l
  induction l with
  | nil => rfl
  | cons hd tl ih =>
    obtain ⟨v, vote, perf⟩ := hd
    cases vote with
    | none =>
      rw [List.find?_cons_of_neg _ (by simp [onchainUpdateTrigger])]
      simpa only [updateOnchainLoop] using ih
    | some vs =>
      simp only [updateOnchainLoop]
      split
      · rename_i hcond
        rw [List.find?_cons_of_pos _
          (show onchainUpdateTrigger s (v, some vs, perf) = true from hcond)]
        rfl
      · rename_i hcond
        rw [List.find?_cons_of_neg _
          (show ¬onchainUpdateTrigger s (v, some vs, perf) = true from hcond)]
        exact ih

/-! ## Claim C9: unstake from an inactive validator -/

/-- Counterexample to claim C9 as stated: the snapshot has a non-active
validator with a stake account and fewer than the maximum unstake accounts
(second conjunct), yet no action is produced, because the acting maintainer
is not a member of the maintainer list and `get_unstake_instruction`
therefore returns `None`. -/
theorem claim_C9_counterexample :
    inactiveUnstakeState.try_unstake_from_inactive_validator trivialCollab = none ∧
    (inactiveUnstakeState.validators.zip
        inactiveUnstakeState.validator_stake_accounts).any
      unstakeInactiveCandidate = true := by
  refine ⟨by decide, by decide⟩

theorem unstakeInactiveLoop_eq (s : SolidoState) (c : Collab)
    (hmem : (Maintainer.listPosition s.maintainers s.maintainer_address).isSome = true)
    (l : List (Validator × List (Pubkey × StakeAccount)))
    (hsub : ∀ t ∈ l, t.1 ∈ s.validators) :
    unstakeInactiveLoop s c l =
      (l.find? unstakeInactiveCandidate).map (mkUnstakeFromInactive c) := by
  induction l with
  | nil => rfl
  | cons hd tl ih =>
    obtain ⟨v, sas⟩ := hd
    have hv : v ∈ s.validators := hsub (v, sas) (List.mem_cons_self _ _)
    have htl : ∀ t ∈ tl, t.1 ∈ s.validators := fun t ht =>
      hsub t (List.mem_cons_of_mem _ ht)
    by_cases h1 : v.is_active = true
    · rw [List.find?_cons_of_neg _ (by simp [unstakeInactiveCandidate, h1])]
      simp only [unstakeInactiveLoop]
      rw [if_pos h1]
      exact ih htl
    · by_cases h2 : MAXIMUM_UNSTAKE_ACCOUNTS ≤
          v.unstake_seeds.end_ - v.unstake_seeds.begin_
      · have hdec : decide (v.unstake_seeds.end_ - v.unstake_seeds.begin_ <
            MAXIMUM_UNSTAKE_ACCOUNTS) = false := decide_eq_false (by omega)
        rw [List.find?_cons_of_neg _ (by simp [unstakeInactiveCandidate, hdec])]
        simp only [unstakeInactiveLoop]
        rw [if_neg h1, if_pos h2]
        exact ih htl
      · cases sas with
        | nil =>
          rw [List.find?_cons_of_neg _ (by simp [unstakeInactiveCandidate])]
          simp only [unstakeInactiveLoop]
          rw [if_neg h1, if_neg h2]
          exact ih htl
        | cons first rest =>
          have hdec : decide (v.unstake_seeds.end_ - v.unstake_seeds.begin_ <
              MAXIMUM_UNSTAKE_ACCOUNTS) = true := decide_eq_true (by omega)
          have hact : v.is_active = false := by
            revert h1
            cases v.is_active <;> simp
          rw [List.find?_cons_of_pos _
            (by simp [unstakeInactiveCandidate, hdec, hact])]
          simp only [unstakeInactiveLoop]
          rw [if_neg h1, if_neg h2]
          have hvp : (Validator.listPosition s.validators v.pubkey).isSome = true := by
            unfold Validator.listPosition
            rw [List.findIdx?_isSome]
            exact List.any_eq_true.mpr ⟨v, hv, by simp⟩
          obtain ⟨i, hi⟩ := Option.isSome_iff_exists.mp hvp
          obtain ⟨j, hj⟩ := Option.isSome_iff_exists.mp hmem
          unfold SolidoState.get_unstake_instruction
          rw [hi, hj]
          rfl

/-- Claim C9 as amended: provided the acting maintainer is a member of the
maintainer list, `try_unstake_from_inactive_validator` returns an action
exactly when some non-active validator has at least one stake account and
fewer than the maximum allowed (3) unstake accounts; the action targets the
first such validator in list order and unstakes the full total balance of
its first stake account. -/
theorem claim_C9_amended (s : SolidoState) (c : Collab)
    (hmem : (Maintainer.listPosition s.maintainers s.maintainer_address).isSome = true) :
    s.try_unstake_from_inactive_validator c =
      ((s.validators.zip s.validator_stake_accounts).find?
        unstakeInactiveCandidate).map (mkUnstakeFromInactive c) := by
  unfold SolidoState.try_unstake_from_inactive_validator
  exact unstakeInactiveLoop_eq s c hmem _ (fun t ht => (List.of_mem_zip ht).1)

theorem claim_C9_witness :
    inactiveUnstakeMemberState.try_unstake_from_inactive_validator trivialCollab =
      some (MaintenanceOutput.UnstakeFromInactiveValidator
        { validator_vote_account := 11
          from_stake_account := 21
          to_unstake_account := 0
          from_stake_seed := 0
          to_unstake_seed := 0
          amount := 5000000000 }) := by
  have h := claim_C9_amended inactiveUnstakeMemberState trivialCollab (by decide)
  rw [h]
  rfl

/-! ## Claim C3: the stake deposit -/

/-- The deposit amount `try_stake_deposit` computes:
`max(min(amount-below-target, effective reserve), minimum stake balance)`. -/
def stakeDepositAmount (s : SolidoState) (c : Collab) : Nat :=
  max (min (c.get_minimum_stake_validator_index_amount s.validators
      (c.get_target_balance s.get_effective_reserve s.validators)).2
    s.get_effective_reserve) MINIMUM_STAKE_ACCOUNT_BALANCE

/-- The index of the validator furthest below its target, as reported by the
allocator to `try_stake_deposit`. -/
def stakeDepositTargetIndex (s : SolidoState) (c : Collab) : Nat :=
  (c.get_minimum_stake_validator_index_amount s.validators
    (c.get_target_balance s.get_effective_reserve s.validators)).1

/-- Counterexample to claim C3 as stated: the timing gate permits (second
conjunct), an active validator exists (third conjunct), and the computed
deposit amount does not exceed the effective reserve (fourth conjunct), yet
no action is produced, because the acting maintainer is not a member of the
maintainer list. -/
theorem claim_C3_counterexample :
    stakeDepositState.try_stake_deposit belowTargetCollab = none ∧
    stakeDepositState.confirm_should_stake_unstake_in_current_slot = some () ∧
    (stakeDepositState.validators.find? Validator.is_active).isSome = true ∧
    stakeDepositAmount stakeDepositState belowTargetCollab ≤
      stakeDepositState.get_effective_reserve := by
  refine ⟨by decide, by decide, by decide, by decide⟩

/-- Claim C3 as amended: when the timing gate permits, an active validator
exists, and the acting maintainer is a member of the maintainer list,
`try_stake_deposit` computes the deposit as
`max(min(amount-below-target, effective reserve), minimum stake balance)`;
it produces no action if that amount exceeds the effective reserve (in
particular when the reserve is the floor minus one), and otherwise stakes
exactly that amount with the validator the allocator reports furthest below
target — so a produced deposit is never below the floor. -/
theorem claim_C3_amended (s : SolidoState) (c : Collab)
    (ht : s.confirm_should_stake_unstake_in_current_slot = some ())
    (ha : (s.validators.find? Validator.is_active).isSome = true)
    (hm : (Maintainer.listPosition s.maintainers s.maintainer_address).isSome = true) :
    (s.get_effective_reserve < stakeDepositAmount s c →
      s.try_stake_deposit c = none) ∧
    (stakeDepositAmount s c ≤ s.get_effective_reserve →
      ∃ sa, s.try_stake_deposit c = some (MaintenanceOutput.StakeDeposit
        (s.validators.getD (stakeDepositTargetIndex s c) default).pubkey sa
        (stakeDepositAmount s c))) ∧
    (∀ vva sa a,
      s.try_stake_deposit c = some (MaintenanceOutput.StakeDeposit vva sa a) →
      MINIMUM_STAKE_ACCOUNT_BALANCE ≤ a) ∧
    (s.get_effective_reserve = MINIMUM_STAKE_ACCOUNT_BALANCE - 1 →
      s.try_stake_deposit c = none) := by
  obtain ⟨u, hu⟩ := Option.isSome_iff_exists.mp ha
  obtain ⟨j, hj⟩ := Option.isSome_iff_exists.mp hm
  have hshape : ∃ E, s.try_stake_deposit c =
      if s.get_effective_reserve < stakeDepositAmount s c then none
      else some (MaintenanceOutput.StakeDeposit
        (s.validators.getD (stakeDepositTargetIndex s c) default).pubkey E
        (stakeDepositAmount s c)) := by
    unfold SolidoState.try_stake_deposit
    rw [ht]
    dsimp only
    rw [hu]
    dsimp only
    rw [hj]
    exact ⟨_, rfl⟩
  obtain ⟨E, hE⟩ := hshape
  have hMin : 0 < MINIMUM_STAKE_ACCOUNT_BALANCE := by
    norm_num [MINIMUM_STAKE_ACCOUNT_BALANCE]
  have hAmount : MINIMUM_STAKE_ACCOUNT_BALANCE ≤ stakeDepositAmount s c :=
    Nat.le_max_right _ _
  refine ⟨?_, ?_, ?_, ?_⟩
  · intro hlt
    rw [hE, if_pos hlt]
  · intro hle
    exact ⟨E, by rw [hE, if_neg (Nat.not_lt.mpr hle)]⟩
  · intro vva sa a hsome
    rw [hE] at hsome
    by_cases hlt : s.get_effective_reserve < stakeDepositAmount s c
    · rw [if_pos hlt] at hsome
      exact absurd hsome (by simp)
    · rw [if_neg hlt] at hsome
      have := Option.some.inj hsome
      have ha' : stakeDepositAmount s c = a := by
        injection this
      omega
  · intro hres
    rw [hE, if_pos (by omega)]

theorem claim_C3_witness :
    stakeDepositShortState.try_stake_deposit belowTargetCollab = none :=
  (claim_C3_amended stakeDepositShortState belowTargetCollab (by decide) (by decide)
    (by decide)).2.2.2 (by decide)

end Solido
